import Mathlib

/-!
Verification development for the `next-i18n-backend-demo` repository.

The repository consists of a `next-i18next` configuration file
(`next-i18next.config.js`), two example page components, and a README
describing a chained (cache-first, network-fallback, write-back) translation
loading strategy.  The configuration objects are embedded below directly from
the source.  The layered-resource-loader behaviour (resolve, backfill,
invalidate, coalescing, readiness) lives in third-party i18next backend
plugins whose code is not part of this repository; those operations are
modelled from the specification, as marked on each definition.
-/

set_option autoImplicit false

namespace NextI18nDemo

/-- The three i18next backend plugins named by the repository:
`i18next-http-backend`, `i18next-chained-backend`,
`i18next-localstorage-backend`. -/
inductive Plugin where
  | httpBackend
  | chainedBackend
  | localStorageBackend
deriving DecidableEq, Repr

/-- `requestOptions` block of `next-i18next.config.js` (lines 10-13). -/
structure RequestOptions where
  mode : String
  cache : String
deriving DecidableEq, Repr

/-- `backend` block of `next-i18next.config.js` (lines 7-14): options for the
HTTP backend.  Note: there is no `backends` chain list in this block. -/
structure HttpBackendOptions where
  loadPath : String
  addPath : String
  requestOptions : RequestOptions
deriving DecidableEq, Repr

/-- `i18n` block of `next-i18next.config.js` (lines 15-18). -/
structure I18nBlock where
  defaultLocale : String
  locales : List String
deriving DecidableEq, Repr

/-- Shape of the object exported by `next-i18next.config.js`. -/
structure NextI18NextConfig where
  debug : Bool
  backend : HttpBackendOptions
  i18n : I18nBlock
  serializeConfig : Bool
  usePlugins : List Plugin
deriving DecidableEq, Repr

/-- An environment-variable map, as seen by `process.env`: a variable name is
mapped to its value, or to `none` when the variable is unset. -/
def EnvMap : Type := String → Option String

/-- Line 3 of `next-i18next.config.js`:
`const isDev = process.env.NODE_ENV === "development";`. -/
def isDev (env : EnvMap) : Bool :=
  env "NODE_ENV" == some "development"

/-- The object exported by `next-i18next.config.js` (lines 5-21), evaluated
under environment `env`.  The `use` list registers the HTTP backend plugin
unconditionally; the file contains no `typeof window` branch. -/
def operativeConfig (env : EnvMap) : NextI18NextConfig :=
  { debug := isDev env
  , backend :=
      { loadPath := "http://localhost:3000/api/locales?lng=\x7b\x7blng\x7d\x7d&ns=\x7b\x7bns\x7d\x7d"
      , addPath := "http://localhost:3000/api/locales?lng=\x7b\x7blng\x7d\x7d&ns=\x7b\x7bns\x7d\x7d"
      , requestOptions := { mode := "no-cors", cache := "default" } }
  , i18n := { defaultLocale := "en", locales := ["en"] }
  , serializeConfig := false
  , usePlugins := [Plugin.httpBackend] }

/-- The backend plugin layer list registered by the operative configuration in
a given environment.  `next-i18next.config.js` registers `[HttpBackend]`
with no environment branch, so the list does not depend on `isBrowser`. -/
def operativeBackendLayers (isBrowser : Bool) : List Plugin :=
  match isBrowser with
  | true => [Plugin.httpBackend]
  | false => [Plugin.httpBackend]

/-- The `backends` chain of the README example config (`part_000`, config
snippet): `typeof window !== 'undefined' ? [LocalStorageBackend, HttpBackend] : []`. -/
def readmeBackends (isBrowser : Bool) : List Plugin :=
  if isBrowser then [Plugin.localStorageBackend, Plugin.httpBackend] else []

/-- The `use` list of the README example config (`part_000`, config snippet):
`typeof window !== 'undefined' ? [ChainedBackend] : []`. -/
def readmeUse (isBrowser : Bool) : List Plugin :=
  if isBrowser then [Plugin.chainedBackend] else []

/-- `backendOptions` of the README example config: the cache layer expiration
duration, one hour in milliseconds. -/
def readmeExpirationTime : Nat := 60 * 60 * 1000

/-- `i18n.locales` of the README example config. -/
def readmeLocales : List String := ["en", "de"]

/-- An environment with no variables set. -/
def emptyEnv : EnvMap := fun _ => none

/-- An environment where `NODE_ENV` is `development`. -/
def devEnv : EnvMap :=
  fun v => if v = "NODE_ENV" then some "development" else none

/-- A resource key: (language tag, namespace) pair. -/
abbrev TKey := String × String

/-- A resource bundle: mapping from translation key to translated string. -/
abbrev Bundle := List (String × String)

/-- Diagnostic causes attached to a failed authoritative read.  Modelled from
the spec: failure taxonomy for layer read errors (network-unreachable,
timeout, decode-error). -/
inductive Cause where
  | networkUnreachable
  | timeout
  | decodeError
deriving DecidableEq, Repr

/-- Outcome of a single layer read: a fresh bundle, a miss (absent or stale
entry), or a read error with a diagnostic cause. -/
inductive ReadResult where
  | hit (b : Bundle)
  | miss
  | err (c : Cause)
deriving DecidableEq, Repr

/-- Modelled from the spec: one backend layer of the chained loader
(i18next-chained-backend with i18next-localstorage-backend and
i18next-http-backend; the plugin code is not part of this repository).
`entries` is the layer store, each entry carrying an optional expiration
timestamp (`none` for source entries that never go stale); `readFailure`,
when set, makes every read of the layer fail with that cause; `writeEnabled`
is false when backfill writes to the layer fail and are ignored
(best-effort writes); `expirationTime` is the configured cache duration
stamped onto written entries. -/
structure Layer where
  entries : List (TKey × Bundle × Option Nat)
  readFailure : Option Cause
  writeEnabled : Bool
  expirationTime : Option Nat
deriving DecidableEq, Repr

/-- Look up the entry stored for key `k`. -/
def lookupEntry (es : List (TKey × Bundle × Option Nat)) (k : TKey) :
    Option (Bundle × Option Nat) :=
  match es with
  | [] => none
  | (k₂, b, e) :: rest => if k₂ = k then some (b, e) else lookupEntry rest k

/-- An entry with expiration timestamp `t` is stale at time `now` when
`t ≤ now`; entries without a timestamp never go stale. -/
def isStale (e : Option Nat) (now : Nat) : Bool :=
  match e with
  | none => false
  | some t => t ≤ now

/-- Modelled from the spec: a layer read.  A failing layer returns its error;
otherwise a stored non-stale entry is a hit and anything else (absent entry,
or stale entry, treated as a miss for that layer) is a miss. -/
def layerRead (l : Layer) (k : TKey) (now : Nat) : ReadResult :=
  match l.readFailure with
  | some c => ReadResult.err c
  | none =>
    match lookupEntry l.entries k with
    | none => ReadResult.miss
    | some (b, e) => if isStale e now then ReadResult.miss else ReadResult.hit b

/-- The bundle of the first non-stale, non-failing entry for `k` in priority
order, if any. -/
def firstHit (k : TKey) (now : Nat) : List Layer → Option Bundle
  | [] => none
  | l :: rest =>
    match layerRead l k now with
    | ReadResult.hit b => some b
    | _ => firstHit k now rest

/-- The bundle of the non-stale entry a single layer holds for `k`, ignoring
read failures: `some b` exactly when the layer has a non-stale entry `b`. -/
def freshEntry (l : Layer) (k : TKey) (now : Nat) : Option Bundle :=
  match lookupEntry l.entries k with
  | none => none
  | some (b, e) => if isStale e now then none else some b

/-- Store `(k, b, e)` in an entry list, replacing any previous entry for `k`. -/
def setEntry (es : List (TKey × Bundle × Option Nat)) (k : TKey) (b : Bundle)
    (e : Option Nat) : List (TKey × Bundle × Option Nat) :=
  match es with
  | [] => [(k, b, e)]
  | (k₂, b₂, e₂) :: rest =>
    if k₂ = k then (k, b, e) :: rest else (k₂, b₂, e₂) :: setEntry rest k b e

/-- Modelled from the spec: a backfill write into a layer.  A written entry is
stamped with expiration `now + expirationTime` (no stamp when the layer has
no configured duration); a layer whose write fails ignores the write
(best-effort, failure-tolerant). -/
def layerWrite (l : Layer) (k : TKey) (b : Bundle) (now : Nat) : Layer :=
  if l.writeEnabled then
    { l with entries := setEntry l.entries k b (l.expirationTime.map (fun d => now + d)) }
  else l

/-- A layer with backfill writes disabled (writes fail and are ignored). -/
def disableWrite (l : Layer) : Layer :=
  { l with writeEnabled := false }

/-- Result of a resolve call: a found bundle, or an explicit absent result
optionally carrying the authoritative diagnostic cause.  Resolve is total:
no failure is delivered as a thrown fault. -/
inductive ResolveResult where
  | found (b : Bundle)
  | absent (c : Option Cause)
deriving DecidableEq, Repr

/-- Whether a read result is a hit. -/
def ReadResult.isHit : ReadResult → Bool
  | ReadResult.hit _ => true
  | _ => false

/-- Modelled from the spec: the resolve algorithm of the chained loader.
Layers are consulted in priority order, one read each; the first hit
short-circuits, and on the way back the bundle is backfilled into every
earlier layer that missed.  A read error is downgraded to a miss, except
that the final (authoritative) layer attaches its cause to the absent
result.  Returns the resolve result, the layers after all backfill writes
settle, and the number of layers consulted. -/
def resolveGo (k : TKey) (now : Nat) : List Layer → ResolveResult × List Layer × Nat
  | [] => (ResolveResult.absent none, [], 0)
  | l :: rest =>
    match layerRead l k now with
    | ReadResult.hit b => (ResolveResult.found b, l :: rest, 1)
    | ReadResult.miss =>
      match resolveGo k now rest with
      | (ResolveResult.found b, rest₂, n) =>
        (ResolveResult.found b, layerWrite l k b now :: rest₂, n + 1)
      | (ResolveResult.absent c₂, rest₂, n) =>
        (ResolveResult.absent c₂, l :: rest₂, n + 1)
    | ReadResult.err c =>
      match resolveGo k now rest with
      | (ResolveResult.found b, rest₂, n) =>
        (ResolveResult.found b, layerWrite l k b now :: rest₂, n + 1)
      | (ResolveResult.absent c₂, rest₂, n) =>
        (ResolveResult.absent (if rest.isEmpty then some c else c₂), l :: rest₂, n + 1)

/-- The diagnostic cause of the final (authoritative) layer read, if that
read errs. -/
def lastErr (k : TKey) (now : Nat) : List Layer → Option Cause
  | [] => none
  | [l] =>
    match layerRead l k now with
    | ReadResult.err c => some c
    | _ => none
  | _ :: l₂ :: rest => lastErr k now (l₂ :: rest)

/-- The final (authoritative) layer of a chain, if the chain is non-empty. -/
def lastLayer : List Layer → Option Layer
  | [] => none
  | [l] => some l
  | _ :: l₂ :: rest => lastLayer (l₂ :: rest)

/-- Mark the entry stored for `k` stale by forcing its expiration timestamp
to `0`. -/
def staleMark : List (TKey × Bundle × Option Nat) → TKey →
    List (TKey × Bundle × Option Nat)
  | [], _ => []
  | (k₂, b, e) :: rest, k =>
    (if k₂ = k then (k₂, b, some 0) else (k₂, b, e)) :: staleMark rest k

/-- Modelled from the spec: `invalidate(key)` on one layer marks the cached
entry for `key` stale, so the next resolve falls through and re-fetches. -/
def invalidateLayer (l : Layer) (k : TKey) : Layer :=
  { l with entries := staleMark l.entries k }

/-- Modelled from the spec: `invalidate(key)` over the chain treats every
cache layer entry for `key` as stale; the final (authoritative) layer is the
source of truth and is left as is. -/
def invalidate : List Layer → TKey → List Layer
  | [], _ => []
  | [a], _ => [a]
  | l :: l₂ :: rest, k => invalidateLayer l k :: invalidate (l₂ :: rest) k

/-- Example key for the `common` namespace requested by the index page. -/
def keyCommon : TKey := ("en", "common")

/-- Example key for the `client-page` namespace of the README scenario. -/
def keyClientPage : TKey := ("en", "client-page")

/-- Example key for the `footer` namespace of the README scenario. -/
def keyFooter : TKey := ("en", "footer")

/-- The bundle of the README backfill scenario. -/
def helloBundle : Bundle := [("h1", "Hello")]

/-- An empty local cache layer with the configured one-hour expiration. -/
def emptyCache : Layer :=
  { entries := [], readFailure := none, writeEnabled := true
  , expirationTime := some readmeExpirationTime }

/-- A healthy network layer whose authoritative source holds bundle `b`
for key `k`. -/
def networkWith (k : TKey) (b : Bundle) : Layer :=
  { entries := [(k, b, none)], readFailure := none, writeEnabled := false
  , expirationTime := none }

/-- A network layer whose reads fail because the network is unreachable. -/
def unreachableNetwork : Layer :=
  { entries := [], readFailure := some Cause.networkUnreachable
  , writeEnabled := false, expirationTime := none }

/-- A cache layer holding a stale entry for the `footer` key (expiration
timestamp 5). -/
def staleCacheFooter : Layer :=
  { entries := [(keyFooter, helloBundle, some 5)], readFailure := none
  , writeEnabled := true, expirationTime := some readmeExpirationTime }

/-- A cache layer whose reads fail with a timeout. -/
def failingCache : Layer :=
  { entries := [], readFailure := some Cause.timeout, writeEnabled := true
  , expirationTime := some readmeExpirationTime }

/-- A cache layer holding a fresh copy of the `common` bundle (expiration
timestamp 999). -/
def warmCacheCommon : Layer :=
  { entries := [(keyCommon, helloBundle, some 999)], readFailure := none
  , writeEnabled := true, expirationTime := some readmeExpirationTime }

/-- Modelled from the spec: the per-loader-instance request-coalescing
table.  `inflight` maps each key with an outstanding authoritative request
to the number of resolve calls waiting on it; `authRequests` counts the read
requests issued to the authoritative (slowest) layer. -/
structure Coalescer where
  inflight : List (TKey × Nat)
  authRequests : Nat
deriving DecidableEq, Repr

/-- Number of waiters registered for `k`; `none` when no request for `k` is
outstanding. -/
def lookupWaiters : List (TKey × Nat) → TKey → Option Nat
  | [], _ => none
  | (k₂, n) :: rest, k => if k₂ = k then some n else lookupWaiters rest k

/-- Add one waiter to the outstanding request for `k`. -/
def addWaiter : List (TKey × Nat) → TKey → List (TKey × Nat)
  | [], _ => []
  | (k₂, n) :: rest, k =>
    if k₂ = k then (k₂, n + 1) :: rest else (k₂, n) :: addWaiter rest k

/-- Drop the outstanding request for `k`. -/
def removeKey : List (TKey × Nat) → TKey → List (TKey × Nat)
  | [], _ => []
  | (k₂, n) :: rest, k =>
    if k₂ = k then rest else (k₂, n) :: removeKey rest k

/-- Modelled from the spec: one resolve call arriving for a key missing from
every cache layer.  If a request for the key is already in flight the call
joins it as one more waiter; otherwise a single authoritative read request
is issued and recorded. -/
def beginResolve (s : Coalescer) (k : TKey) : Coalescer :=
  match lookupWaiters s.inflight k with
  | some _ => { s with inflight := addWaiter s.inflight k }
  | none =>
    { inflight := (k, 1) :: s.inflight, authRequests := s.authRequests + 1 }

/-- `n` concurrent resolve calls for `k`, all arriving before the
authoritative response. -/
def beginResolveN (s : Coalescer) (k : TKey) : Nat → Coalescer
  | 0 => s
  | n + 1 => beginResolve (beginResolveN s k n) k

/-- Modelled from the spec: the authoritative response for `k` settles the
coalesced request, delivering the one fetched bundle to every waiting
call. -/
def completeResolve (s : Coalescer) (k : TKey) (b : Bundle) :
    Coalescer × List Bundle :=
  ({ inflight := removeKey s.inflight k, authRequests := s.authRequests },
   List.replicate ((lookupWaiters s.inflight k).getD 0) b)

/-- Readiness State: the per-consumer-session flag with its two values. -/
inductive Readiness where
  | notReady
  | ready
deriving DecidableEq, Repr

/-- Modelled from the spec: a consumer session — the bundles the session has
requested, those that have resolved (hit or permanent miss), the content
already rendered on the page, and the readiness flag. -/
structure Session where
  requested : List TKey
  resolved : List TKey
  rendered : List (String × String)
  readiness : Readiness
deriving DecidableEq, Repr

/-- All currently-requested bundles have resolved. -/
def allResolved (s : Session) : Bool :=
  s.requested.all (fun k => decide (k ∈ s.resolved))

/-- Session events: a requested bundle settles (its resolve returns a hit or
a permanent miss — this also covers the authoritative response following a
reload), or an explicit reload is requested for already-loaded bundles. -/
inductive SEvent where
  | settle (k : TKey)
  | reload (ks : List TKey)
deriving DecidableEq, Repr

/-- Modelled from the spec: the effect of an event on the session
bookkeeping.  A settle marks the bundle resolved; a reload marks the given
bundles unresolved again.  Rendered content is never removed by loading
events. -/
def applyEvent (s : Session) : SEvent → Session
  | SEvent.settle k =>
    { s with resolved := if k ∈ s.resolved then s.resolved else k :: s.resolved }
  | SEvent.reload ks =>
    { s with resolved := s.resolved.filter (fun k => decide (k ∉ ks)) }

/-- Modelled from the spec: a session step applies the event and recomputes
the readiness flag — ready exactly when all currently-requested bundles
have resolved. -/
def step (s : Session) (e : SEvent) : Session :=
  let s₂ := applyEvent s e
  { s₂ with readiness := if allResolved s₂ then Readiness.ready else Readiness.notReady }

/-- Example key for the `lazy-reload-page` namespace of the README
scenario. -/
def keyLazyReload : TKey := ("en", "lazy-reload-page")

/-- A ready session of the lazy-reload scenario: the lazy-reload bundle is
requested, resolved, and its content rendered. -/
def readySession : Session :=
  { requested := [keyLazyReload], resolved := [keyLazyReload]
  , rendered := [("h1", "Hello")], readiness := Readiness.ready }

end NextI18nDemo

namespace NextI18nDemo

/-- Reading a layer does not depend on whether its writes are enabled. -/
theorem layerRead_disableWrite (l : Layer) (k : TKey) (now : Nat) :
    layerRead (disableWrite l) k now = layerRead l k now := rfl

/-- A non-failing layer reads exactly its non-stale stored entry. -/
theorem layerRead_of_none (l : Layer) (k : TKey) (now : Nat)
    (hfail : l.readFailure = none) :
    layerRead l k now =
      (match freshEntry l k now with
       | some b => ReadResult.hit b
       | none => ReadResult.miss) := by
  unfold layerRead freshEntry
  rw [hfail]
  cases lookupEntry l.entries k with
  | none => rfl
  | some p =>
    cases p with
    | mk b e =>
      cases hs : isStale e now <;> simp [hs]

/-- Looking up a key right after storing it returns the stored entry. -/
theorem lookupEntry_setEntry (k : TKey) (b : Bundle) (e : Option Nat) :
    ∀ es : List (TKey × Bundle × Option Nat),
      lookupEntry (setEntry es k b e) k = some (b, e) := by
  intro es
  induction es with
  | nil => simp [setEntry, lookupEntry]
  | cons p rest ih =>
    rcases p with ⟨k₂, b₂, e₂⟩
    by_cases h : k₂ = k
    · simp [setEntry, lookupEntry, h]
    · simp [setEntry, lookupEntry, h, ih]

/-- Marking a key stale preserves the stored bundle content and forces the
expiration timestamp to `0`. -/
theorem lookupEntry_staleMark (k : TKey) :
    ∀ es : List (TKey × Bundle × Option Nat),
      lookupEntry (staleMark es k) k =
        (lookupEntry es k).map (fun p => (p.1, some 0)) := by
  intro es
  induction es with
  | nil => rfl
  | cons p rest ih =>
    rcases p with ⟨k₂, b₂, e₂⟩
    by_cases h : k₂ = k
    · subst h
      rw [show staleMark ((k₂, b₂, e₂) :: rest) k₂ = (k₂, b₂, some 0) :: staleMark rest k₂
        from by simp [staleMark]]
      simp [lookupEntry]
    · rw [show staleMark ((k₂, b₂, e₂) :: rest) k = (k₂, b₂, e₂) :: staleMark rest k
        from by simp [staleMark, h]]
      simp [lookupEntry, h, ih]

/-- Resolve over a chain whose prefix misses and whose next layer hits:
the result is that bundle, every prefix layer receives a backfill write, the
suffix is untouched, and exactly `prefix length + 1` layers are consulted. -/
theorem resolveGo_prefix_miss (k : TKey) (now : Nat) (b : Bundle) (l : Layer)
    (post : List Layer) :
    ∀ pre : List Layer,
      (∀ p ∈ pre, (layerRead p k now).isHit = false) →
      layerRead l k now = ReadResult.hit b →
      resolveGo k now (pre ++ l :: post) =
        (ResolveResult.found b,
         pre.map (fun p => layerWrite p k b now) ++ l :: post,
         pre.length + 1) := by
  intro pre
  induction pre with
  | nil =>
    intro _ hl
    simp [resolveGo, hl]
  | cons p ps ih =>
    intro hpre hl
    have hih := ih (fun q hq => hpre q (List.mem_cons_of_mem _ hq)) hl
    have hp := hpre p (List.mem_cons_self _ _)
    cases hread : layerRead p k now with
    | hit b₂ => rw [hread] at hp; simp [ReadResult.isHit] at hp
    | miss => simp [resolveGo, hread, hih]
    | err c => simp [resolveGo, hread, hih]

/-- Resolve over a chain in which every layer misses (or errs): the result is
absent with the authoritative cause, no layer is modified, and every layer is
consulted exactly once. -/
theorem resolveGo_all_miss (k : TKey) (now : Nat) :
    ∀ ls : List Layer,
      (∀ p ∈ ls, (layerRead p k now).isHit = false) →
      resolveGo k now ls =
        (ResolveResult.absent (lastErr k now ls), ls, ls.length) := by
  intro ls
  induction ls with
  | nil => intro _; simp [resolveGo, lastErr]
  | cons l rest ih =>
    intro h
    have hih := ih (fun q hq => h q (List.mem_cons_of_mem _ hq))
    have hl := h l (List.mem_cons_self _ _)
    cases hread : layerRead l k now with
    | hit b => rw [hread] at hl; simp [ReadResult.isHit] at hl
    | miss =>
      simp only [resolveGo, hread]
      rw [hih]
      cases rest with
      | nil => simp [lastErr, hread]
      | cons l₂ rest₂ => simp [lastErr]
    | err c =>
      simp only [resolveGo, hread]
      rw [hih]
      cases rest with
      | nil => simp [lastErr, hread]
      | cons l₂ rest₂ => simp [lastErr]

/-- The authoritative cause of a chain ending in layer `a` is determined by
the read of `a` alone. -/
theorem lastErr_append_single (k : TKey) (now : Nat) (a : Layer) :
    ∀ pre : List Layer,
      lastErr k now (pre ++ [a]) =
        (match layerRead a k now with
         | ReadResult.err c => some c
         | _ => none) := by
  intro pre
  induction pre with
  | nil => rfl
  | cons p ps ih =>
    cases ps with
    | nil =>
      simp only [List.cons_append, List.nil_append, lastErr]
    | cons q qs =>
      simp only [List.cons_append] at ih ⊢
      simp only [lastErr]
      exact ih

/-- If the first hit of the chain is `b`, resolve returns `found b`. -/
theorem resolveGo_fst_of_firstHit (k : TKey) (now : Nat) :
    ∀ (ls : List Layer) (b : Bundle), firstHit k now ls = some b →
      (resolveGo k now ls).1 = ResolveResult.found b := by
  intro ls
  induction ls with
  | nil => intro b h; simp [firstHit] at h
  | cons l rest ih =>
    intro b h
    cases hread : layerRead l k now with
    | hit b₂ =>
      simp only [firstHit, hread, Option.some.injEq] at h
      subst h
      simp [resolveGo, hread]
    | miss =>
      simp only [firstHit, hread] at h
      have hr := ih b h
      rcases hres : resolveGo k now rest with ⟨res, rest₂, n⟩
      rw [hres] at hr
      change res = ResolveResult.found b at hr
      subst hr
      simp [resolveGo, hread, hres]
    | err c =>
      simp only [firstHit, hread] at h
      have hr := ih b h
      rcases hres : resolveGo k now rest with ⟨res, rest₂, n⟩
      rw [hres] at hr
      change res = ResolveResult.found b at hr
      subst hr
      simp [resolveGo, hread, hres]

/-- A chain has no first hit exactly when every layer read is a non-hit. -/
theorem firstHit_eq_none_iff (k : TKey) (now : Nat) :
    ∀ ls : List Layer,
      firstHit k now ls = none ↔ ∀ p ∈ ls, (layerRead p k now).isHit = false := by
  intro ls
  induction ls with
  | nil => simp [firstHit]
  | cons l rest ih =>
    cases hread : layerRead l k now with
    | hit b => simp [firstHit, hread, ReadResult.isHit]
    | miss => simp [firstHit, hread, ih, ReadResult.isHit]
    | err c => simp [firstHit, hread, ih, ReadResult.isHit]

/-- An authoritative cause always comes from the final layer of the chain. -/
theorem lastErr_eq_some (k : TKey) (now : Nat) :
    ∀ (ls : List Layer) (c : Cause), lastErr k now ls = some c →
      ∃ l, lastLayer ls = some l ∧ layerRead l k now = ReadResult.err c := by
  intro ls
  induction ls with
  | nil => intro c h; simp [lastErr] at h
  | cons l rest ih =>
    intro c h
    cases rest with
    | nil =>
      refine ⟨l, rfl, ?_⟩
      simp only [lastErr] at h
      cases hread : layerRead l k now <;> rw [hread] at h <;> simp at h
      · rw [h]
    | cons l₂ rest₂ =>
      simp only [lastErr] at h
      obtain ⟨last, hlast, hr⟩ := ih c h
      exact ⟨last, by simpa [lastLayer] using hlast, hr⟩

/-- Joining an in-flight request adds exactly one waiter for that key. -/
theorem lookupWaiters_addWaiter (k : TKey) :
    ∀ es : List (TKey × Nat),
      lookupWaiters (addWaiter es k) k =
        (lookupWaiters es k).map (fun n => n + 1) := by
  intro es
  induction es with
  | nil => rfl
  | cons p rest ih =>
    rcases p with ⟨k₂, n⟩
    by_cases h : k₂ = k
    · subst h
      simp [addWaiter, lookupWaiters]
    · simp [addWaiter, lookupWaiters, h, ih]

/-- After `n + 1` resolve calls arrive for a key with no outstanding
request, exactly one authoritative request has been issued and `n + 1`
waiters are registered. -/
theorem beginResolveN_spec (s : Coalescer) (k : TKey)
    (h0 : lookupWaiters s.inflight k = none) :
    ∀ n : Nat,
      lookupWaiters (beginResolveN s k (n + 1)).inflight k = some (n + 1) ∧
      (beginResolveN s k (n + 1)).authRequests = s.authRequests + 1 := by
  intro n
  induction n with
  | zero =>
    constructor
    · show lookupWaiters (beginResolve (beginResolveN s k 0) k).inflight k = some 1
      simp [beginResolveN, beginResolve, h0, lookupWaiters]
    · show (beginResolve (beginResolveN s k 0) k).authRequests = s.authRequests + 1
      simp [beginResolveN, beginResolve, h0]
  | succ m ih =>
    obtain ⟨h1, h2⟩ := ih
    constructor
    · show lookupWaiters (beginResolve (beginResolveN s k (m + 1)) k).inflight k =
        some (m + 1 + 1)
      simp [beginResolve, h1, lookupWaiters_addWaiter]
    · show (beginResolve (beginResolveN s k (m + 1)) k).authRequests =
        s.authRequests + 1
      simp [beginResolve, h1, h2]

end NextI18nDemo

namespace NextI18nDemo

/-- C1 counterexample: the operative configuration does not give the browser
the layer chain [local cache, network], and its server-side layer list is not
empty; `next-i18next.config.js` registers the HTTP backend plugin alone,
unconditionally. -/
theorem C1_counterexample :
    ¬ (operativeBackendLayers true = [Plugin.localStorageBackend, Plugin.httpBackend] ∧
       operativeBackendLayers false = []) := by
  decide

/-- C1 (amended): the environment-branched chain — browser
`[LocalStorageBackend, HttpBackend]`, server `[]` — is specified only by the
documentation example config; the operative `next-i18next.config.js`
registers `[HttpBackend]` in every environment. -/
theorem C1_layer_lists (env : EnvMap) (isBrowser : Bool) :
    (operativeConfig env).usePlugins = [Plugin.httpBackend] ∧
    operativeBackendLayers isBrowser = [Plugin.httpBackend] ∧
    readmeBackends true = [Plugin.localStorageBackend, Plugin.httpBackend] ∧
    readmeBackends false = [] ∧
    readmeUse true = [Plugin.chainedBackend] ∧
    readmeUse false = [] := by
  refine ⟨rfl, ?_, rfl, rfl, rfl, rfl⟩
  cases isBrowser <;> rfl

/-- C9: the operative configuration enables the debug flag exactly when the
environment variable `NODE_ENV` equals `development`, and the flag depends on
no other environment input. -/
theorem C9_debug_iff_dev (env env₂ : EnvMap) :
    ((operativeConfig env).debug = true ↔ env "NODE_ENV" = some "development") ∧
    (env "NODE_ENV" = env₂ "NODE_ENV" →
      (operativeConfig env).debug = (operativeConfig env₂).debug) := by
  constructor
  · simp [operativeConfig, isDev]
  · intro h
    simp [operativeConfig, isDev, h]

/-- C9 witness: under `devEnv` the debug flag is on, and an environment
agreeing with `devEnv` on `NODE_ENV` yields the same flag. -/
theorem C9_debug_iff_dev_witness :
    ((operativeConfig devEnv).debug = true ↔ devEnv "NODE_ENV" = some "development") ∧
    (operativeConfig devEnv).debug = (operativeConfig devEnv).debug :=
  ⟨(C9_debug_iff_dev devEnv devEnv).1, (C9_debug_iff_dev devEnv devEnv).2 rfl⟩

/-- C10: the operative supported-locale list is exactly `["en"]` with default
locale `en`; any other language tag, in particular `de` (which the README
example config lists), is outside the configured supported set. -/
theorem C10_locales (env : EnvMap) :
    (operativeConfig env).i18n.locales = ["en"] ∧
    (operativeConfig env).i18n.defaultLocale = "en" ∧
    (∀ l : String, l ≠ "en" → l ∉ (operativeConfig env).i18n.locales) ∧
    "de" ∈ readmeLocales := by
  refine ⟨rfl, rfl, ?_, by decide⟩
  intro l hl hmem
  simp [operativeConfig] at hmem
  exact hl hmem

/-- C10 witness: instantiated at the language tag `de`. -/
theorem C10_locales_witness :
    "de" ∉ (operativeConfig emptyEnv).i18n.locales :=
  (C10_locales emptyEnv).2.2.1 "de" (by decide)

/-- C2: for every key, time, and layer ordering split as `pre ++ l :: post`
with healthy (non-erroring) reads, if no layer of `pre` has a non-stale
entry for the key and `l` has the non-stale entry `b`, then resolve returns
`b`, consults only the first `pre.length + 1` layers, and leaves every later
layer untouched. -/
theorem C2_resolve_first_fresh (k : TKey) (now : Nat) (b : Bundle)
    (pre post : List Layer) (l : Layer)
    (hpre : ∀ p ∈ pre, p.readFailure = none ∧ freshEntry p k now = none)
    (hfail : l.readFailure = none)
    (hfresh : freshEntry l k now = some b) :
    (resolveGo k now (pre ++ l :: post)).1 = ResolveResult.found b ∧
    (resolveGo k now (pre ++ l :: post)).2.2 = pre.length + 1 ∧
    (resolveGo k now (pre ++ l :: post)).2.1 =
      pre.map (fun p => layerWrite p k b now) ++ l :: post := by
  have hl : layerRead l k now = ReadResult.hit b := by
    rw [layerRead_of_none l k now hfail, hfresh]
  have hpre₂ : ∀ p ∈ pre, (layerRead p k now).isHit = false := by
    intro p hp
    obtain ⟨h1, h2⟩ := hpre p hp
    rw [layerRead_of_none p k now h1, h2]
    rfl
  rw [resolveGo_prefix_miss k now b l post pre hpre₂ hl]
  exact ⟨rfl, rfl, rfl⟩

/-- C2 witness: an empty cache followed by a network layer holding the
`common` bundle resolves to that bundle after consulting both layers, with
the network layer left unchanged. -/
theorem C2_resolve_first_fresh_witness :
    (resolveGo keyCommon 0 ([emptyCache] ++ networkWith keyCommon helloBundle :: [])).1 =
      ResolveResult.found helloBundle ∧
    (resolveGo keyCommon 0 ([emptyCache] ++ networkWith keyCommon helloBundle :: [])).2.2 = 2 :=
  have h := C2_resolve_first_fresh keyCommon 0 helloBundle [emptyCache] []
    (networkWith keyCommon helloBundle) (by decide) (by decide) (by decide)
  ⟨h.1, h.2.1⟩

/-- C3: a hit at layer `l` after every layer of `pre` missed backfills each
earlier layer with the returned bundle: the result is `found b`, each
write-enabled earlier layer afterwards holds `b` stamped with expiration
`now + configured duration`, and the returned result is unchanged when the
backfill writes fail. -/
theorem C3_backfill (k : TKey) (now : Nat) (b : Bundle)
    (pre post : List Layer) (l : Layer)
    (hpre : ∀ p ∈ pre, (layerRead p k now).isHit = false)
    (hl : layerRead l k now = ReadResult.hit b) :
    (resolveGo k now (pre ++ l :: post)).1 = ResolveResult.found b ∧
    (resolveGo k now (pre ++ l :: post)).2.1 =
      pre.map (fun p => layerWrite p k b now) ++ l :: post ∧
    (∀ p ∈ pre, p.writeEnabled = true →
      lookupEntry (layerWrite p k b now).entries k =
        some (b, p.expirationTime.map (fun d => now + d))) ∧
    (resolveGo k now (pre.map disableWrite ++ l :: post)).1 = ResolveResult.found b := by
  have h := resolveGo_prefix_miss k now b l post pre hpre hl
  refine ⟨by rw [h], by rw [h], ?_, ?_⟩
  · intro p hp hw
    rw [show layerWrite p k b now =
        { p with entries := setEntry p.entries k b (p.expirationTime.map fun d => now + d) }
      from by simp [layerWrite, hw]]
    exact lookupEntry_setEntry k b _ p.entries
  · have hpre₂ : ∀ p ∈ pre.map disableWrite, (layerRead p k now).isHit = false := by
      intro p hp
      obtain ⟨q, hq, rfl⟩ := List.mem_map.mp hp
      rw [layerRead_disableWrite]
      exact hpre q hq
    rw [resolveGo_prefix_miss k now b l post (pre.map disableWrite) hpre₂ hl]

/-- C3 witness: the README scenario — an empty cache and a network layer
returning the `Hello` bundle for (en, client-page) at time 0; resolve
returns the bundle and the cache write stamps expiration `0 + one hour`. -/
theorem C3_backfill_witness :
    (resolveGo keyClientPage 0
        ([emptyCache] ++ networkWith keyClientPage helloBundle :: [])).1 =
      ResolveResult.found helloBundle ∧
    lookupEntry (layerWrite emptyCache keyClientPage helloBundle 0).entries keyClientPage =
      some (helloBundle, some (0 + readmeExpirationTime)) ∧
    (resolveGo keyClientPage 0
        ([emptyCache].map disableWrite ++ networkWith keyClientPage helloBundle :: [])).1 =
      ResolveResult.found helloBundle :=
  have h := C3_backfill keyClientPage 0 helloBundle [emptyCache] []
    (networkWith keyClientPage helloBundle) (by decide) (by decide)
  ⟨h.1, h.2.2.1 emptyCache (by decide) (by decide), h.2.2.2⟩

/-- C5: resolve delivers failure only as an explicit absent result, exactly
when every layer read is a non-hit (exhaustion of all layers); an attached
diagnostic cause always originates from the final (authoritative) layer, so
read errors of earlier cache layers never propagate to the caller. -/
theorem C5_error_propagation (k : TKey) (now : Nat) (ls : List Layer) :
    (∀ c, (resolveGo k now ls).1 = ResolveResult.absent c →
      ∀ p ∈ ls, (layerRead p k now).isHit = false) ∧
    ((∀ p ∈ ls, (layerRead p k now).isHit = false) →
      (resolveGo k now ls).1 = ResolveResult.absent (lastErr k now ls)) ∧
    (∀ c, (resolveGo k now ls).1 = ResolveResult.absent (some c) →
      ∃ l, lastLayer ls = some l ∧ layerRead l k now = ReadResult.err c) := by
  have habs : ∀ c, (resolveGo k now ls).1 = ResolveResult.absent c →
      ∀ p ∈ ls, (layerRead p k now).isHit = false := by
    intro c h
    rw [← firstHit_eq_none_iff]
    cases hfh : firstHit k now ls with
    | none => rfl
    | some b =>
      rw [resolveGo_fst_of_firstHit k now ls b hfh] at h
      exact ResolveResult.noConfusion h
  refine ⟨habs, ?_, ?_⟩
  · intro h
    rw [resolveGo_all_miss k now ls h]
  · intro c h
    have h₂ := h
    rw [resolveGo_all_miss k now ls (habs (some c) h)] at h₂
    have h₃ : ResolveResult.absent (lastErr k now ls) = ResolveResult.absent (some c) := h₂
    injection h₃ with h₄
    exact lastErr_eq_some k now ls c h₄

/-- C5 witness: a cache whose reads fail with a timeout followed by an
unreachable network layer — resolve yields an explicit absent result whose
cause comes from the network layer, not the cache. -/
theorem C5_error_propagation_witness :
    (resolveGo keyFooter 10 [failingCache, unreachableNetwork]).1 =
      ResolveResult.absent (lastErr keyFooter 10 [failingCache, unreachableNetwork]) ∧
    (∃ l, lastLayer [failingCache, unreachableNetwork] = some l ∧
      layerRead l keyFooter 10 = ReadResult.err Cause.networkUnreachable) :=
  have h := C5_error_propagation keyFooter 10 [failingCache, unreachableNetwork]
  ⟨h.2.1 (by decide), h.2.2 Cause.networkUnreachable (by decide)⟩

/-- C6: when the authoritative (final) layer read fails with cause `c` and
every earlier layer misses (for example because its entry is stale),
resolve returns a miss carrying the diagnostic cause `c`, leaves every
layer — including stale cache entries — unchanged, and consults each layer
exactly once (no automatic retry). -/
theorem C6_auth_failure (k : TKey) (now : Nat) (c : Cause)
    (pre : List Layer) (a : Layer)
    (hpre : ∀ p ∈ pre, (layerRead p k now).isHit = false)
    (ha : a.readFailure = some c) :
    (resolveGo k now (pre ++ [a])).1 = ResolveResult.absent (some c) ∧
    (resolveGo k now (pre ++ [a])).2.1 = pre ++ [a] ∧
    (resolveGo k now (pre ++ [a])).2.2 = (pre ++ [a]).length := by
  have hra : layerRead a k now = ReadResult.err c := by
    unfold layerRead
    rw [ha]
  have hall : ∀ p ∈ pre ++ [a], (layerRead p k now).isHit = false := by
    intro p hp
    rcases List.mem_append.mp hp with h | h
    · exact hpre p h
    · rw [List.mem_singleton] at h
      subst h
      rw [hra]
      rfl
  rw [resolveGo_all_miss k now (pre ++ [a]) hall]
  refine ⟨?_, rfl, rfl⟩
  rw [lastErr_append_single k now a pre, hra]

/-- C6 witness: the README scenario — a stale cache entry for (en, footer)
and an unreachable network; resolve reports absent with cause
network-unreachable and the stale entry is left in place. -/
theorem C6_auth_failure_witness :
    (resolveGo keyFooter 10 ([staleCacheFooter] ++ [unreachableNetwork])).1 =
      ResolveResult.absent (some Cause.networkUnreachable) ∧
    (resolveGo keyFooter 10 ([staleCacheFooter] ++ [unreachableNetwork])).2.1 =
      [staleCacheFooter] ++ [unreachableNetwork] ∧
    (resolveGo keyFooter 10 ([staleCacheFooter] ++ [unreachableNetwork])).2.2 = 2 :=
  have h := C6_auth_failure keyFooter 10 Cause.networkUnreachable [staleCacheFooter]
    unreachableNetwork (by decide) (by decide)
  ⟨h.1, h.2.1, h.2.2⟩

/-- C7: with the authoritative source content for `k` unchanged (the cache
held content `b` before, and the source still holds `b`), invalidate
followed immediately by resolve returns the same bundle content `b`, and a
write-enabled cache afterwards holds `b` again with a refreshed expiration
timestamp. -/
theorem C7_invalidate_then_resolve (k : TKey) (now : Nat) (b : Bundle)
    (e : Option Nat) (cache auth : Layer)
    (hcr : cache.readFailure = none)
    (hheld : lookupEntry cache.entries k = some (b, e))
    (har : auth.readFailure = none)
    (hsrc : lookupEntry auth.entries k = some (b, none)) :
    (resolveGo k now (invalidate [cache, auth] k)).1 = ResolveResult.found b ∧
    (resolveGo k now (invalidate [cache, auth] k)).2.1 =
      [layerWrite (invalidateLayer cache k) k b now, auth] ∧
    (cache.writeEnabled = true →
      lookupEntry (layerWrite (invalidateLayer cache k) k b now).entries k =
        some (b, cache.expirationTime.map (fun d => now + d))) := by
  have hinv : invalidate [cache, auth] k = [invalidateLayer cache k, auth] := rfl
  have hlk : lookupEntry (staleMark cache.entries k) k = some (b, some 0) := by
    rw [lookupEntry_staleMark k cache.entries, hheld]
    rfl
  have hcacheRead : layerRead (invalidateLayer cache k) k now = ReadResult.miss := by
    simp [layerRead, invalidateLayer, hcr, hlk, isStale, Nat.zero_le]
  have hauthRead : layerRead auth k now = ReadResult.hit b := by
    simp [layerRead, har, hsrc, isStale]
  have h := resolveGo_prefix_miss k now b auth [] [invalidateLayer cache k]
    (by
      intro p hp
      rw [List.mem_singleton] at hp
      subst hp
      rw [hcacheRead]
      rfl)
    hauthRead
  have h₂ : resolveGo k now [invalidateLayer cache k, auth] =
      (ResolveResult.found b, [layerWrite (invalidateLayer cache k) k b now, auth], 2) := h
  rw [hinv, h₂]
  refine ⟨rfl, rfl, ?_⟩
  intro hw
  rw [show layerWrite (invalidateLayer cache k) k b now =
      { invalidateLayer cache k with
        entries := setEntry (staleMark cache.entries k) k b
          (cache.expirationTime.map fun d => now + d) }
    from by simp [layerWrite, invalidateLayer, hw]]
  exact lookupEntry_setEntry k b _ (staleMark cache.entries k)

/-- C7 witness: a warm cache holding the `common` bundle and a source still
holding the same content — invalidate then resolve returns the same content
and refreshes the cache entry expiration to `0 + one hour`. -/
theorem C7_invalidate_then_resolve_witness :
    (resolveGo keyCommon 0 (invalidate [warmCacheCommon, networkWith keyCommon helloBundle] keyCommon)).1 =
      ResolveResult.found helloBundle ∧
    lookupEntry
        (layerWrite (invalidateLayer warmCacheCommon keyCommon) keyCommon helloBundle 0).entries
        keyCommon =
      some (helloBundle, some (0 + readmeExpirationTime)) :=
  have h := C7_invalidate_then_resolve keyCommon 0 helloBundle (some 999)
    warmCacheCommon (networkWith keyCommon helloBundle)
    (by decide) (by decide) (by decide) (by decide)
  ⟨h.1, h.2.2 (by decide)⟩

/-- C4: `n ≥ 1` concurrent resolve calls for a key with no outstanding
request issue exactly one authoritative-layer read request between them, and
when the authoritative response arrives each of the `n` calls receives the
same successful bundle. -/
theorem C4_coalescing (s : Coalescer) (k : TKey) (b : Bundle) (n : Nat)
    (h0 : lookupWaiters s.inflight k = none) (hn : 1 ≤ n) :
    (beginResolveN s k n).authRequests = s.authRequests + 1 ∧
    (completeResolve (beginResolveN s k n) k b).2 = List.replicate n b ∧
    (completeResolve (beginResolveN s k n) k b).2.length = n ∧
    (∀ r ∈ (completeResolve (beginResolveN s k n) k b).2, r = b) := by
  cases n with
  | zero => exact absurd hn (by decide)
  | succ m =>
    obtain ⟨h1, h2⟩ := beginResolveN_spec s k h0 m
    have h3 : (completeResolve (beginResolveN s k (m + 1)) k b).2 =
        List.replicate (m + 1) b := by
      simp [completeResolve, h1]
    refine ⟨h2, h3, ?_, ?_⟩
    · rw [h3, List.length_replicate]
    · intro r hr
      rw [h3] at hr
      exact List.eq_of_mem_replicate hr

/-- C4 witness: three concurrent calls for the `common` key on a fresh
loader instance issue one authoritative request and all receive the same
bundle. -/
theorem C4_coalescing_witness :
    (beginResolveN ⟨[], 0⟩ keyCommon 3).authRequests = 0 + 1 ∧
    (completeResolve (beginResolveN ⟨[], 0⟩ keyCommon 3) keyCommon helloBundle).2 =
      List.replicate 3 helloBundle :=
  have h := C4_coalescing ⟨[], 0⟩ keyCommon helloBundle 3 (by decide) (by decide)
  ⟨h.1, h.2.1⟩

/-- The readiness flag after a step is determined by whether all requested
bundles are resolved after the event applies. -/
theorem step_readiness (s : Session) (e : SEvent) :
    (step s e).readiness =
      if allResolved (applyEvent s e) then Readiness.ready else Readiness.notReady := rfl

/-- C8: the Readiness State has exactly the two values not-ready and ready;
a step is ready exactly when all currently-requested bundles have resolved;
a settle never takes a ready session out of readiness (only an explicit
reload does); and reloading a requested bundle of a ready session moves it
to not-ready and back to ready once the bundle settles again, leaving the
already-rendered content untouched throughout. -/
theorem C8_readiness (s : Session) (k : TKey) :
    (∀ r : Readiness, r = Readiness.notReady ∨ r = Readiness.ready) ∧
    (∀ e, (step s e).readiness = Readiness.ready ↔
      allResolved (applyEvent s e) = true) ∧
    (allResolved s = true →
      (step s (SEvent.settle k)).readiness = Readiness.ready) ∧
    (allResolved s = true → k ∈ s.requested →
      (step s (SEvent.reload [k])).readiness = Readiness.notReady ∧
      (step s (SEvent.reload [k])).rendered = s.rendered ∧
      (step (step s (SEvent.reload [k])) (SEvent.settle k)).readiness =
        Readiness.ready ∧
      (step (step s (SEvent.reload [k])) (SEvent.settle k)).rendered =
        s.rendered) := by
  refine ⟨?_, ?_, ?_, ?_⟩
  · intro r
    cases r
    · exact Or.inl rfl
    · exact Or.inr rfl
  · intro e
    by_cases h : allResolved (applyEvent s e) = true
    · simp [step_readiness, h]
    · simp [step_readiness, h]
  · intro h
    have h₂ : allResolved (applyEvent s (SEvent.settle k)) = true := by
      simp only [allResolved, applyEvent, List.all_eq_true, decide_eq_true_eq] at h ⊢
      intro j hj
      by_cases hk : k ∈ s.resolved
      · simp only [if_pos hk]
        exact h j hj
      · simp only [if_neg hk]
        exact List.mem_cons_of_mem _ (h j hj)
    rw [step_readiness, if_pos h₂]
  · intro h hk
    simp only [allResolved, List.all_eq_true, decide_eq_true_eq] at h
    have hkf : k ∉ s.resolved.filter (fun j => decide (j ∉ [k])) := by
      intro hmem
      have h₂ := (List.mem_filter.mp hmem).2
      simp at h₂
    have hfalse : allResolved (applyEvent s (SEvent.reload [k])) = false := by
      cases hb : allResolved (applyEvent s (SEvent.reload [k])) with
      | false => rfl
      | true =>
        exfalso
        simp only [allResolved, applyEvent, List.all_eq_true, decide_eq_true_eq] at hb
        exact hkf (hb k hk)
    have hres : (step s (SEvent.reload [k])).resolved =
        s.resolved.filter (fun j => decide (j ∉ [k])) := rfl
    have hreq : (step s (SEvent.reload [k])).requested = s.requested := rfl
    have htrue :
        allResolved (applyEvent (step s (SEvent.reload [k])) (SEvent.settle k)) = true := by
      simp only [allResolved, applyEvent, List.all_eq_true, decide_eq_true_eq, hres, hreq]
      rw [if_neg hkf]
      intro j hj
      by_cases hjk : j = k
      · subst hjk
        exact List.mem_cons_self _ _
      · apply List.mem_cons_of_mem
        apply List.mem_filter.mpr
        refine ⟨h j hj, by simp [hjk]⟩
    refine ⟨?_, rfl, ?_, rfl⟩
    · rw [step_readiness, if_neg (by simp [hfalse])]
    · rw [step_readiness, if_pos htrue]

/-- C8 witness: the lazy-reload scenario on a concrete ready session —
reload takes it to not-ready with rendered content intact, and the
authoritative response returns it to ready. -/
theorem C8_readiness_witness :
    (step readySession (SEvent.reload [keyLazyReload])).readiness =
      Readiness.notReady ∧
    (step readySession (SEvent.reload [keyLazyReload])).rendered =
      readySession.rendered ∧
    (step (step readySession (SEvent.reload [keyLazyReload]))
        (SEvent.settle keyLazyReload)).readiness = Readiness.ready ∧
    (step (step readySession (SEvent.reload [keyLazyReload]))
        (SEvent.settle keyLazyReload)).rendered = readySession.rendered :=
  (C8_readiness readySession keyLazyReload).2.2.2 (by decide) (by decide)

end NextI18nDemo
